import Mathlib

set_option maxRecDepth 8000

namespace Blueolive

/-! Shallow embedding of the blueolive-be analysis-job pipeline: the status
state machine and worker (`processAnalysis` in the worker service), the
Gemini response parsing (`gemini.service.ts`), and the dashboard
aggregations (`dashboard.service.ts`). -/

/-- Status enum from `src/modules/analysis/types/index.ts` (`AnalysisStatus`). -/
inductive AnalysisStatus
  | PENDING
  | PROCESSING
  | COMPLETED
  | FAILED
  deriving DecidableEq, Repr

/-- Player color from `src/modules/analysis/types/index.ts` (`PlayerColor`). -/
inductive PlayerColor
  | white
  | black
  deriving DecidableEq, Repr

/-- Game metadata from `AnalysisMetadata` (types/index.ts). Optional TS fields
become `Option`. -/
structure AnalysisMetadata where
  white : String
  black : String
  result : String
  event : Option String
  date : Option String
  eco : Option String
  opening : Option String
  deriving DecidableEq, Repr

/-- A raw puzzle object as produced by Gemini (`ChessPuzzle` in types/index.ts). -/
structure ChessPuzzle where
  title : String
  description : String
  fen : String
  solution : String
  hint : Option String
  difficulty : String
  theme : String
  deriving DecidableEq, Repr

/-- One phase entry of an analysis result (types/index.ts, `AnalysisResult.phases`). -/
structure AnalysisPhase where
  name : String
  moves : String
  evaluation : String
  key_ideas : List String
  deriving DecidableEq, Repr

/-- One key-moment entry of an analysis result (types/index.ts). -/
structure KeyMoment where
  move_number : Nat
  move : String
  fen : String
  evaluation : String
  comment : String
  is_mistake : Bool
  deriving DecidableEq, Repr

/-- The puzzle-free part of an analysis result: TS `Omit<AnalysisResult, "puzzles">`,
which is what `geminiService.analyzeGame` returns as `result`. -/
structure AnalysisCore where
  summary : String
  phases : List AnalysisPhase
  key_moments : List KeyMoment
  recommendations : List String
  deriving DecidableEq, Repr

/-- `AnalysisResult` from types/index.ts: the stored result, whose `puzzles`
field is a list of puzzle-id references (strings), never puzzle bodies. -/
structure AnalysisResult extends AnalysisCore where
  puzzles : List String
  deriving DecidableEq, Repr

/-- One analysis job record (the mongoose `Analysis` document, fields relevant
to the worker and dashboard). `user_id` is `none` when the document has no
user id (guest submission); `result`/`error`/`completed_at` are `none` when
unset; timestamps are abstracted to `Nat`. -/
structure AnalysisJob where
  analysis_id : String
  user_id : Option String
  status : AnalysisStatus
  pgn : String
  player_name : String
  player_color : Option PlayerColor
  metadata : AnalysisMetadata
  result : Option AnalysisResult
  error : Option String
  completed_at : Option Nat
  deriving DecidableEq, Repr

/-- A persisted Puzzle record (puzzle.model.ts): a `ChessPuzzle` body plus
`puzzle_id`, `user_id` and the back-reference `analysis_id`. -/
structure Puzzle extends ChessPuzzle where
  puzzle_id : String
  user_id : String
  analysis_id : String
  deriving DecidableEq, Repr

/-- The value returned by `geminiService.analyzeGame` on success: the
puzzle-free result plus the raw puzzle objects. -/
structure GeminiResponse where
  result : AnalysisCore
  puzzles : List ChessPuzzle
  deriving DecidableEq, Repr

/-- Environment of one `processAnalysis` invocation: the outcome of the
external Gemini call, the outcome of the puzzle-batch save (`none` =
succeeds, `some msg` = throws), a fresh-id generator for saved puzzles, the
outcome of the n-th `analysis.save()` performed during the run (`none` =
succeeds, `some msg` = the save rejects with that message), and the clock
used for `completed_at`. -/
structure WorkerEnv where
  gemini : Except String GeminiResponse
  puzzleFail : Option String
  freshIds : Nat → String
  saveFail : Nat → Option String
  now : Nat

/-- Observable outcome of one `processAnalysis` invocation: the job record the
store holds at the end (`final`), the successful `analysis.save()` writes in
order, whether the external Gemini call was performed, the Puzzle records
created, and the error with which the invocation itself rejected (if any). -/
structure WorkerTrace where
  final : Option AnalysisJob
  writes : List AnalysisJob
  geminiCalled : Bool
  puzzleRecords : List Puzzle
  threw : Option String
  deriving DecidableEq, Repr

/-- Models the worker's `analysis.user_id?.toString() || "guest"`: a missing
id (and the falsy empty string) collapses to the guest sentinel. -/
def effectiveUserId (u : Option String) : String :=
  match u with
  | none => "guest"
  | some s => if s = "" then "guest" else s

/-- Turn the candidate batch into Puzzle records, assigning the fresh ids in
order starting at index `i`. -/
def attachIds (userId analysisId : String) (freshIds : Nat → String) :
    Nat → List ChessPuzzle → List Puzzle
  | _, [] => []
  | i, p :: ps =>
    { toChessPuzzle := p, puzzle_id := freshIds i,
      user_id := userId, analysis_id := analysisId } :: attachIds userId analysisId freshIds (i + 1) ps

/-- Modelled from the spec: the Puzzle Linker (`puzzleService.savePuzzles`,
whose source is not among the provided files; only its caller in the worker
is). Per spec section 4.2 it persists each candidate as an independent Puzzle
record with a fresh id (here `freshIds 0, freshIds 1, ...`), returning the
saved records in order; the batch is treated as all-or-nothing, and a
persistence failure throws. -/
def savePuzzlesModel (cands : List ChessPuzzle) (userId analysisId : String)
    (freshIds : Nat → String) (fail : Option String) :
    Except String (List Puzzle) :=
  match fail with
  | some m => Except.error m
  | none => Except.ok (attachIds userId analysisId freshIds 0 cands)

/-- The puzzle-saving block of the worker (part_002 lines 60-99): save only
when there are candidates and the user is not the guest sentinel; a save
failure is caught and absorbed, leaving an empty reference list. Returns the
reference ids stored on the result together with the records created. -/
def linkPuzzles (puzzleObjects : List ChessPuzzle) (userId analysisId : String)
    (env : WorkerEnv) : List String × List Puzzle :=
  if puzzleObjects.length > 0 ∧ userId ≠ "guest" then
    match savePuzzlesModel puzzleObjects userId analysisId env.freshIds env.puzzleFail with
    | Except.ok saved => (saved.map fun p => p.puzzle_id, saved)
    | Except.error _ => ([], [])
  else ([], [])

/-- The worker's catch block (part_002 lines 112-118): set status FAILED and
`error` on the in-memory document (its other fields, including any result
already assigned, are kept) and save. `idx` is the index of this save among
the run's saves; if this save also fails, the error propagates out of
`processAnalysis`. `lastStore` is the record the store last accepted. -/
def runCatch (lastStore : Option AnalysisJob) (doc : AnalysisJob) (msg : String)
    (idx : Nat) (env : WorkerEnv) (writes : List AnalysisJob)
    (called : Bool) (saved : List Puzzle) : WorkerTrace :=
  let failedDoc := { doc with status := AnalysisStatus.FAILED, error := some msg }
  match env.saveFail idx with
  | none => { final := some failedDoc, writes := writes ++ [failedDoc],
              geminiCalled := called, puzzleRecords := saved, threw := none }
  | some msg2 => { final := lastStore, writes := writes,
                   geminiCalled := called, puzzleRecords := saved, threw := some msg2 }

/-- Body of the worker's try block for a PENDING job (part_002 lines 25-118).
Save 0 is the PROCESSING claim, save 1 is the COMPLETED commit on the success
path (or the FAILED commit when the claim save or Gemini failed), save 2 is
the FAILED commit after a failed COMPLETED commit. -/
def processPending (analysis : AnalysisJob) (env : WorkerEnv) : WorkerTrace :=
  let processing := { analysis with status := AnalysisStatus.PROCESSING }
  match env.saveFail 0 with
  | some msg => runCatch (some analysis) processing msg 1 env [] false []
  | none =>
    match env.gemini with
    | Except.error msg => runCatch (some processing) processing msg 1 env [processing] true []
    | Except.ok resp =>
      let userId := effectiveUserId analysis.user_id
      let linked := linkPuzzles resp.puzzles userId analysis.analysis_id env
      let resultWithReferences : AnalysisResult :=
        { toAnalysisCore := resp.result, puzzles := linked.1 }
      let completedDoc := { processing with
        result := some resultWithReferences,
        status := AnalysisStatus.COMPLETED,
        completed_at := some env.now }
      match env.saveFail 1 with
      | none => { final := some completedDoc, writes := [processing, completedDoc],
                  geminiCalled := true, puzzleRecords := linked.2, threw := none }
      | some msg => runCatch (some processing) completedDoc msg 2 env [processing] true linked.2

/-- `processAnalysis` from the worker service (part_002): load the record by
id (`record` is the store's answer), no-op when absent or not PENDING,
otherwise run the claim-analyze-commit pipeline. -/
def processAnalysis (record : Option AnalysisJob) (env : WorkerEnv) : WorkerTrace :=
  match record with
  | none => { final := none, writes := [], geminiCalled := false,
              puzzleRecords := [], threw := none }
  | some analysis =>
    if analysis.status ≠ AnalysisStatus.PENDING then
      { final := some analysis, writes := [], geminiCalled := false,
        puzzleRecords := [], threw := none }
    else
      processPending analysis env

/-! Dashboard aggregations, from `dashboard.service.ts`. -/

/-- `Math.round(num / den)` for nonnegative rationals: round half away from
zero, which on nonnegative inputs is `floor (num / den + 1 / 2)`. The JS code
computes this on exact small integers, where the float computation agrees
with exact rational rounding. -/
def mathRound (num den : Nat) : Nat := (2 * num + den) / (2 * den)

/-- The decisive-win test shared by the three dashboard aggregations:
`(result === "1-0" && playerColor === "white") || (result === "0-1" &&
playerColor === "black")`. -/
def isSubjectWin (result : String) (color : Option PlayerColor) : Bool :=
  decide ((result = "1-0" ∧ color = some PlayerColor.white) ∨
          (result = "0-1" ∧ color = some PlayerColor.black))

/-- `calculateWinRate` (dashboard.service.ts lines 17-40): restrict to
COMPLETED analyses whose recorded result is not "*", return `undefined` on an
empty denominator, else `Math.round((wins / total) * 100)`. -/
def calculateWinRate (analyses : List AnalysisJob) : Option Nat :=
  let completedAnalyses := analyses.filter fun a =>
    decide (a.status = AnalysisStatus.COMPLETED ∧ a.metadata.result ≠ "*")
  if completedAnalyses.length = 0 then none
  else
    let wins := (completedAnalyses.filter fun a =>
      isSubjectWin a.metadata.result a.player_color).length
    some (mathRound (wins * 100) completedAnalyses.length)

/-- Classification used by `getMostPlayedOpenings` and (with a non-null
color) `getPerformanceByColor`: draw on "1/2-1/2", else win on a decisive
result matching the subject color, else loss. -/
inductive GameOutcome
  | win
  | loss
  | draw
  deriving DecidableEq, Repr

/-- The draw / win / else-loss cascade of the two breakdown functions. -/
def outcomeOf (result : String) (color : Option PlayerColor) : GameOutcome :=
  if result = "1/2-1/2" then GameOutcome.draw
  else if isSubjectWin result color then GameOutcome.win
  else GameOutcome.loss

/-- A wins / losses / draws counter triple. -/
structure WLD where
  wins : Nat
  losses : Nat
  draws : Nat
  deriving DecidableEq, Repr

/-- Increment the counter of the given outcome. -/
def WLD.bump (w : WLD) : GameOutcome → WLD
  | GameOutcome.win => { w with wins := w.wins + 1 }
  | GameOutcome.loss => { w with losses := w.losses + 1 }
  | GameOutcome.draw => { w with draws := w.draws + 1 }

/-- The `performance` accumulator of `getPerformanceByColor`. -/
structure ColorPerformance where
  white : WLD
  black : WLD
  deriving DecidableEq, Repr

def emptyWLD : WLD := { wins := 0, losses := 0, draws := 0 }

/-- Select the per-color counters. -/
def ColorPerformance.forColor (p : ColorPerformance) : PlayerColor → WLD
  | PlayerColor.white => p.white
  | PlayerColor.black => p.black

/-- Loop body of `getPerformanceByColor` (dashboard.service.ts lines 120-138):
skip non-COMPLETED rows and rows with no player color, else bump the
subject-color bucket by the outcome. -/
def perfStep (perf : ColorPerformance) (a : AnalysisJob) : ColorPerformance :=
  if a.status ≠ AnalysisStatus.COMPLETED then perf
  else
    match a.player_color with
    | none => perf
    | some PlayerColor.white =>
        { perf with white := perf.white.bump (outcomeOf a.metadata.result (some PlayerColor.white)) }
    | some PlayerColor.black =>
        { perf with black := perf.black.bump (outcomeOf a.metadata.result (some PlayerColor.black)) }

/-- `getPerformanceByColor` (dashboard.service.ts lines 114-141). -/
def getPerformanceByColor (analyses : List AnalysisJob) : ColorPerformance :=
  analyses.foldl perfStep { white := emptyWLD, black := emptyWLD }

/-- One entry of the most-played-openings ranking (`OpeningStat`). -/
structure OpeningStat where
  opening : String
  eco : Option String
  count : Nat
  wins : Nat
  losses : Nat
  draws : Nat
  deriving DecidableEq, Repr

/-- The JS `x || d` idiom on an optional string: undefined and "" are falsy. -/
def orFalsy (x : Option String) (d : String) : String :=
  match x with
  | none => d
  | some s => if s = "" then d else s

def OpeningStat.bumpCount (st : OpeningStat) : OpeningStat :=
  { st with count := st.count + 1 }

def OpeningStat.bumpOutcome (st : OpeningStat) : GameOutcome → OpeningStat
  | GameOutcome.win => { st with wins := st.wins + 1 }
  | GameOutcome.loss => { st with losses := st.losses + 1 }
  | GameOutcome.draw => { st with draws := st.draws + 1 }

/-- The zero stat inserted on first sight of an opening key. -/
def zeroStat (opening eco : String) : OpeningStat :=
  { opening := opening, eco := if eco = "" then none else some eco,
    count := 0, wins := 0, losses := 0, draws := 0 }

/-- Loop body of `getMostPlayedOpenings` (dashboard.service.ts lines 70-104),
with the insertion-ordered JS `Map` modelled as an association list. -/
def openStep (m : List (String × OpeningStat)) (a : AnalysisJob) :
    List (String × OpeningStat) :=
  if a.status ≠ AnalysisStatus.COMPLETED then m
  else
    let opening := orFalsy a.metadata.opening "Unknown"
    let eco := orFalsy a.metadata.eco ""
    let key := opening ++ "|" ++ eco
    let o := outcomeOf a.metadata.result a.player_color
    if (m.lookup key).isSome then
      m.map fun kv => if kv.1 = key then (kv.1, (kv.2.bumpCount).bumpOutcome o) else kv
    else
      m ++ [(key, ((zeroStat opening eco).bumpCount).bumpOutcome o)]

/-- Stable insertion keeping counts descending (models the stable JS sort with
comparator `b.count - a.count`). -/
def insertDesc (x : OpeningStat) : List OpeningStat → List OpeningStat
  | [] => [x]
  | y :: ys => if y.count < x.count then x :: y :: ys else y :: insertDesc x ys

def sortByCountDesc (l : List OpeningStat) : List OpeningStat :=
  l.foldr insertDesc []

/-- `getMostPlayedOpenings` (dashboard.service.ts lines 67-109). -/
def getMostPlayedOpenings (analyses : List AnalysisJob) : List OpeningStat :=
  (sortByCountDesc ((analyses.foldl openStep []).map fun kv => kv.2)).take 5

/-! Gemini response parsing (`gemini.service.ts` lines 181-187): the code runs
`text.match(/\x7b[\s\S]*\x7d/)` and feeds the match to `JSON.parse`. The
regex match, when it exists, is the span from the first opening brace to the
last closing brace of the whole text. -/

/-- The prefix of `cs` ending at the last closing brace of `cs`, or `none`
when `cs` has no closing brace. -/
def takeToLastClose : List Char → Option (List Char)
  | [] => none
  | c :: cs =>
    match takeToLastClose cs with
    | some t => some (c :: t)
    | none => if c = '}' then some [c] else none

/-- The span matched by the greedy regex of `analyzeGame`: from the first
opening brace of the text to the last closing brace, `none` when no closing
brace follows the first opening brace. -/
def extractJsonSpan (t : String) : Option String :=
  (takeToLastClose (t.data.dropWhile fun c => c ≠ '{')).map fun l => ⟨l⟩

/-- JSON whitespace per `JSON.parse`. -/
def isWsChar (c : Char) : Bool := c = ' ' ∨ c = '\n' ∨ c = '\t' ∨ c = '\r'

def skipWs (cs : List Char) : List Char := cs.dropWhile isWsChar

def isDigitChar (c : Char) : Bool := '0' ≤ c ∧ c ≤ '9'

/-- Consume a literal keyword. -/
def stripKeyword : List Char → List Char → Option (List Char)
  | [], cs => some cs
  | _ :: _, [] => none
  | k :: ks, c :: cs => if c = k then stripKeyword ks cs else none

/-- Consume the remainder of a JSON string literal (the opening quote already
consumed); an escape accepts the following character. -/
def eatStringLit : List Char → Option (List Char)
  | [] => none
  | c :: cs =>
    if c = '"' then some cs
    else if c = '\\' then
      match cs with
      | [] => none
      | _ :: cs2 => eatStringLit cs2
    else eatStringLit cs

/-- Consume a nonempty digit run. -/
def eatDigits (cs : List Char) : Option (List Char) :=
  if (cs.takeWhile isDigitChar).isEmpty then none
  else some (cs.dropWhile isDigitChar)

/-- Consume an optional fraction part. -/
def eatFrac : List Char → Option (List Char)
  | '.' :: cs => eatDigits cs
  | cs => some cs

/-- Consume an optional exponent part. -/
def eatExp : List Char → Option (List Char)
  | c :: cs =>
    if c = 'e' ∨ c = 'E' then
      match cs with
      | s :: cs2 => if s = '+' ∨ s = '-' then eatDigits cs2 else eatDigits (s :: cs2)
      | [] => none
    else some (c :: cs)
  | [] => some []

/-- Consume a JSON number. -/
def eatNumber (cs : List Char) : Option (List Char) :=
  let cs2 := match cs with
    | '-' :: r => r
    | r => r
  match eatDigits cs2 with
  | none => none
  | some r =>
    match eatFrac r with
    | none => none
    | some r2 => eatExp r2

mutual

/-- Consume one JSON value; fuel decreases on every nested call and every
call consumes at least one character, so fuel `length + 1` suffices. Models
the acceptance behavior of `JSON.parse`. -/
def eatValue : Nat → List Char → Option (List Char)
  | 0, _ => none
  | fuel + 1, cs =>
    match skipWs cs with
    | [] => none
    | c :: rest =>
      if c = '{' then
        match skipWs rest with
        | '}' :: r => some r
        | r => eatMembers fuel r
      else if c = '[' then
        match skipWs rest with
        | ']' :: r => some r
        | r => eatElems fuel r
      else if c = '"' then eatStringLit rest
      else if c = 't' then stripKeyword ['r', 'u', 'e'] rest
      else if c = 'f' then stripKeyword ['a', 'l', 's', 'e'] rest
      else if c = 'n' then stripKeyword ['u', 'l', 'l'] rest
      else eatNumber (c :: rest)

/-- Consume the members of a JSON object after at least one member is known
to follow, up to and including the closing brace. -/
def eatMembers : Nat → List Char → Option (List Char)
  | 0, _ => none
  | fuel + 1, cs =>
    match skipWs cs with
    | '"' :: r =>
      match eatStringLit r with
      | none => none
      | some r2 =>
        match skipWs r2 with
        | ':' :: r3 =>
          match eatValue fuel r3 with
          | none => none
          | some r4 =>
            match skipWs r4 with
            | '}' :: r5 => some r5
            | ',' :: r5 => eatMembers fuel r5
            | _ => none
        | _ => none
    | _ => none

/-- Consume the elements of a JSON array after at least one element is known
to follow, up to and including the closing bracket. -/
def eatElems : Nat → List Char → Option (List Char)
  | 0, _ => none
  | fuel + 1, cs =>
    match eatValue fuel cs with
    | none => none
    | some r =>
      match skipWs r with
      | ']' :: r2 => some r2
      | ',' :: r2 => eatElems fuel r2
      | _ => none

end

/-- Whether `JSON.parse` accepts the whole string as a single JSON value. -/
def jsonValid (s : String) : Bool :=
  match eatValue (s.data.length + 1) s.data with
  | some rest => (skipWs rest).isEmpty
  | none => false

/-- The parse stage of `analyzeGame`: the greedy regex span when it exists
and parses as JSON; `none` exactly when `analyzeGame` fails with a parse
error (either the "Failed to parse JSON from Gemini response" error or the
rethrown `JSON.parse` syntax error). -/
def geminiParsedSpan (t : String) : Option String :=
  match extractJsonSpan t with
  | none => none
  | some s => if jsonValid s then some s else none

/-- Follows the spec's words, for comparison with the code: scan for the
first balanced brace span. Walk from an opening brace with a depth counter;
the span closes at the brace returning the depth to zero. -/
def balancedGo : List Char → Nat → List Char → Option (List Char)
  | [], _, _ => none
  | c :: cs, depth, acc =>
    if c = '}' then
      if depth = 1 then some (acc ++ [c])
      else balancedGo cs (depth - 1) (acc ++ [c])
    else if c = '{' then balancedGo cs (depth + 1) (acc ++ [c])
    else balancedGo cs depth (acc ++ [c])

/-- Follows the spec's words: the first balanced brace-delimited span of the
text (spec section 4.1, "locates the first balanced span in the response text"). -/
def firstBalancedSpan (t : String) : Option String :=
  match t.data.dropWhile fun c => c ≠ '{' with
  | [] => none
  | c :: rest => (balancedGo rest 1 [c]).map fun l => ⟨l⟩

/-! Interleaving model for the concurrency claim: two invocations of
`processAnalysis` on the same fresh job share the store's status field. Each
invocation is split at its await points: the `findOne` read, the guard plus
`PROCESSING` save (a read-then-write pair, not an atomic conditional write),
and the external Gemini call. -/

/-- One invocation's control point: not yet loaded, loaded with the status
snapshot `findOne` returned, claimed (PROCESSING saved), or finished. -/
inductive WorkerPhase
  | start
  | loaded (snapshot : AnalysisStatus)
  | claimed
  | finished
  deriving DecidableEq, Repr

/-- Shared state of two concurrent invocations: the store's status, both
control points, and the number of external Gemini calls performed. -/
structure ConcState where
  storeStatus : AnalysisStatus
  w1 : WorkerPhase
  w2 : WorkerPhase
  geminiCalls : Nat
  deriving DecidableEq, Repr

/-- One atomic step of one invocation: `findOne` (read status), the PENDING
guard on the snapshot followed by the unconditional `PROCESSING` save, or the
Gemini call. The guard tests the snapshot read earlier, exactly as the code
tests the document returned by `findOne`. -/
def phaseStep (p : WorkerPhase) (store : AnalysisStatus) (calls : Nat) :
    WorkerPhase × AnalysisStatus × Nat :=
  match p with
  | WorkerPhase.start => (WorkerPhase.loaded store, store, calls)
  | WorkerPhase.loaded s =>
    if s ≠ AnalysisStatus.PENDING then (WorkerPhase.finished, store, calls)
    else (WorkerPhase.claimed, AnalysisStatus.PROCESSING, calls)
  | WorkerPhase.claimed => (WorkerPhase.finished, store, calls + 1)
  | WorkerPhase.finished => (WorkerPhase.finished, store, calls)

/-- Run one scheduled step (`true` steps the first invocation). -/
def concStep (st : ConcState) (firstWorker : Bool) : ConcState :=
  if firstWorker then
    let r := phaseStep st.w1 st.storeStatus st.geminiCalls
    { st with w1 := r.1, storeStatus := r.2.1, geminiCalls := r.2.2 }
  else
    let r := phaseStep st.w2 st.storeStatus st.geminiCalls
    { st with w2 := r.1, storeStatus := r.2.1, geminiCalls := r.2.2 }

/-- Run a whole interleaving. -/
def runSchedule (sched : List Bool) (st : ConcState) : ConcState :=
  sched.foldl concStep st

/-- Both invocations poised over a fresh PENDING job. -/
def freshConc : ConcState :=
  { storeStatus := AnalysisStatus.PENDING, w1 := WorkerPhase.start,
    w2 := WorkerPhase.start, geminiCalls := 0 }

/-! Concrete fixtures used by witnesses and counterexamples. -/

def sampleMeta : AnalysisMetadata :=
  { white := "W", black := "B", result := "1-0", event := none, date := none,
    eco := none, opening := some "Ruy Lopez" }

/-- A freshly created analysis job: PENDING, no result, no error, owned by an
authenticated user. -/
def sampleJob : AnalysisJob :=
  { analysis_id := "a1", user_id := some "u1", status := AnalysisStatus.PENDING,
    pgn := "1. e4 e5", player_name := "P",
    player_color := some PlayerColor.white, metadata := sampleMeta,
    result := none, error := none, completed_at := none }

def sampleCore : AnalysisCore :=
  { summary := "s", phases := [], key_moments := [], recommendations := [] }

def samplePuzzle : ChessPuzzle :=
  { title := "t", description := "d", fen := "f", solution := "m",
    hint := none, difficulty := "easy", theme := "Fork" }

def sampleResp : GeminiResponse :=
  { result := sampleCore, puzzles := [samplePuzzle, samplePuzzle] }

/-- Environment where every external interaction succeeds. -/
def sampleEnv : WorkerEnv :=
  { gemini := Except.ok sampleResp, puzzleFail := none,
    freshIds := fun n => "pz" ++ toString n, saveFail := fun _ => none, now := 7 }

/-- Environment where the COMPLETED commit's save rejects and everything else
succeeds. -/
def envCommitFails : WorkerEnv :=
  { sampleEnv with saveFail := fun n => if n = 1 then some "db down" else none }

/-- A COMPLETED dashboard row with the given recorded result and subject
color. -/
def dashJob (res : String) (color : Option PlayerColor) : AnalysisJob :=
  { sampleJob with
    status := AnalysisStatus.COMPLETED,
    player_color := color,
    metadata := { sampleMeta with result := res } }

/-! Claim theorems. -/

/-- Claim C2: for every job whose status is not PENDING (already PROCESSING,
COMPLETED, or FAILED), invoking the processor with its id is a no-op: no
store writes, no external reasoning call, no puzzle records created, nothing
thrown, and the persisted record is unchanged. -/
theorem C2_nonpending_noop (job : AnalysisJob) (env : WorkerEnv)
    (h : job.status ≠ AnalysisStatus.PENDING) :
    processAnalysis (some job) env =
      { final := some job, writes := [], geminiCalled := false,
        puzzleRecords := [], threw := none } := by
  simp [processAnalysis, h]

/-- Witness for C2 at a COMPLETED job under the all-success environment. -/
theorem C2_nonpending_noop_witness :
    processAnalysis (some (dashJob "1-0" (some PlayerColor.white))) sampleEnv =
      { final := some (dashJob "1-0" (some PlayerColor.white)), writes := [],
        geminiCalled := false, puzzleRecords := [], threw := none } :=
  C2_nonpending_noop (dashJob "1-0" (some PlayerColor.white)) sampleEnv (by decide)

/-- Claim C9: the worker's PENDING guard is a read-then-write pair, not an
atomic claim, so two concurrent invocations on the same fresh PENDING job can
both pass the guard before either persists PROCESSING: under the interleaving
load-load-claim-call-claim-call the external reasoning service is called
twice, while any sequential execution calls it exactly once. This refutes
"no duplicate external calls occur". -/
theorem C9_concurrent_double_call :
    (runSchedule [true, false, true, true, false, false] freshConc).geminiCalls = 2 ∧
    (runSchedule [true, true, true, false, false, false] freshConc).geminiCalls = 1 := by
  decide

/-- Claim C8: three COMPLETED jobs with subject color white and recorded
results 1-0, 0-1 and half-half give a win rate of 33; the "*" exclusion does
not fire because all three results are decisive or drawn. -/
theorem C8_win_rate_three_games (a b c : AnalysisJob)
    (ha1 : a.status = AnalysisStatus.COMPLETED)
    (ha2 : a.player_color = some PlayerColor.white)
    (ha3 : a.metadata.result = "1-0")
    (hb1 : b.status = AnalysisStatus.COMPLETED)
    (hb2 : b.player_color = some PlayerColor.white)
    (hb3 : b.metadata.result = "0-1")
    (hc1 : c.status = AnalysisStatus.COMPLETED)
    (hc2 : c.player_color = some PlayerColor.white)
    (hc3 : c.metadata.result = "1/2-1/2") :
    calculateWinRate [a, b, c] = some 33 := by
  simp [calculateWinRate, isSubjectWin, mathRound, List.filter,
    ha1, ha2, ha3, hb1, hb2, hb3, hc1, hc2, hc3]

/-- Witness for C8 on concrete rows. -/
theorem C8_win_rate_three_games_witness :
    calculateWinRate
      [dashJob "1-0" (some PlayerColor.white),
       dashJob "0-1" (some PlayerColor.white),
       dashJob "1/2-1/2" (some PlayerColor.white)] = some 33 :=
  C8_win_rate_three_games _ _ _ (by rfl) (by rfl) (by rfl) (by rfl) (by rfl)
    (by rfl) (by rfl) (by rfl) (by rfl)

/-- Claim C10 (implicit): a COMPLETED job with unknown result "*" falls into
the else-branch of both breakdowns, so it is counted as a loss in the
performance-by-color split and in its opening's stat line, even though the
win-rate computation excludes it from the denominator entirely (here leaving
the win rate undefined). -/
theorem C10_star_counted_as_loss (a : AnalysisJob) (c : PlayerColor)
    (h1 : a.status = AnalysisStatus.COMPLETED)
    (h2 : a.player_color = some c)
    (h3 : a.metadata.result = "*") :
    (getPerformanceByColor [a]).forColor c = { wins := 0, losses := 1, draws := 0 } ∧
    (∃ st, getMostPlayedOpenings [a] = [st] ∧
      st.count = 1 ∧ st.wins = 0 ∧ st.losses = 1 ∧ st.draws = 0) ∧
    calculateWinRate [a] = none := by
  refine ⟨?_, ?_, ?_⟩
  · cases c <;>
      simp [getPerformanceByColor, perfStep, outcomeOf, isSubjectWin,
        WLD.bump, emptyWLD, ColorPerformance.forColor, h1, h2, h3]
  · refine ⟨((zeroStat (orFalsy a.metadata.opening "Unknown")
        (orFalsy a.metadata.eco "")).bumpCount).bumpOutcome GameOutcome.loss, ?_, ?_, ?_, ?_, ?_⟩ <;>
      simp [getMostPlayedOpenings, openStep, outcomeOf, isSubjectWin,
        sortByCountDesc, insertDesc, zeroStat, OpeningStat.bumpCount,
        OpeningStat.bumpOutcome, h1, h2, h3]
  · simp [calculateWinRate, h1, h3]

/-- Environment where only the Gemini call fails. -/
def envGeminiFails : WorkerEnv := { sampleEnv with gemini := Except.error "boom" }

/-- Claim C4: for a PENDING job whose Reasoning-Client call fails, the worker
commits the job directly to FAILED with the captured error message, leaves
`result` and `completedAt` unset, writes no COMPLETED record at any point,
and (the FAILED commit itself persisting) the invocation does not throw. -/
theorem C4_gemini_failure_commits_failed (job : AnalysisJob) (env : WorkerEnv)
    (gmsg : String)
    (hp : job.status = AnalysisStatus.PENDING)
    (hr : job.result = none) (hc : job.completed_at = none)
    (h0 : env.saveFail 0 = none)
    (hg : env.gemini = Except.error gmsg)
    (h1 : env.saveFail 1 = none) :
    ∃ r, (processAnalysis (some job) env).final = some r ∧
      r.status = AnalysisStatus.FAILED ∧ r.error = some gmsg ∧
      r.result = none ∧ r.completed_at = none ∧
      (processAnalysis (some job) env).threw = none ∧
      ∀ w ∈ (processAnalysis (some job) env).writes,
        w.status ≠ AnalysisStatus.COMPLETED := by
  have hpp : processAnalysis (some job) env = processPending job env := by
    simp [processAnalysis, hp]
  rw [hpp]
  refine ⟨{ job with status := AnalysisStatus.FAILED, error := some gmsg },
    ?_, rfl, rfl, hr, hc, ?_, ?_⟩
  · simp [processPending, runCatch, h0, hg, h1]
  · simp [processPending, runCatch, h0, hg, h1]
  · intro w hw
    simp [processPending, runCatch, h0, hg, h1] at hw
    rcases hw with h | h <;> subst h <;> simp

/-- Witness for C4: the fresh sample job under the environment whose Gemini
call rejects with "boom". -/
theorem C4_gemini_failure_commits_failed_witness :
    ∃ r, (processAnalysis (some sampleJob) envGeminiFails).final = some r ∧
      r.status = AnalysisStatus.FAILED ∧ r.error = some "boom" ∧
      r.result = none ∧ r.completed_at = none ∧
      (processAnalysis (some sampleJob) envGeminiFails).threw = none ∧
      ∀ w ∈ (processAnalysis (some sampleJob) envGeminiFails).writes,
        w.status ≠ AnalysisStatus.COMPLETED :=
  C4_gemini_failure_commits_failed sampleJob envGeminiFails "boom"
    (by rfl) (by rfl) (by rfl) (by rfl) (by rfl) (by rfl)

/-- A throwing puzzle-batch save is absorbed, leaving no ids and no records. -/
theorem linkPuzzles_puzzleFail (cands : List ChessPuzzle) (userId aid : String)
    (env : WorkerEnv) (m : String) (h : env.puzzleFail = some m) :
    linkPuzzles cands userId aid env = ([], []) := by
  simp [linkPuzzles, savePuzzlesModel, h]

/-- Claim C5: for a PENDING job whose analysis succeeds, a failure while
persisting the puzzle candidates is caught and absorbed: the job still
commits COMPLETED (no FAILED record is ever written) with an empty
puzzle-reference list in its result, no Puzzle records exist, and nothing
propagates to the caller. -/
theorem C5_puzzle_failure_absorbed (job : AnalysisJob) (env : WorkerEnv)
    (resp : GeminiResponse) (pmsg : String)
    (hp : job.status = AnalysisStatus.PENDING)
    (h0 : env.saveFail 0 = none) (h1 : env.saveFail 1 = none)
    (hg : env.gemini = Except.ok resp)
    (hf : env.puzzleFail = some pmsg) :
    ∃ r, (processAnalysis (some job) env).final = some r ∧
      r.status = AnalysisStatus.COMPLETED ∧
      r.result = some { toAnalysisCore := resp.result, puzzles := [] } ∧
      (processAnalysis (some job) env).puzzleRecords = [] ∧
      (processAnalysis (some job) env).threw = none ∧
      ∀ w ∈ (processAnalysis (some job) env).writes,
        w.status ≠ AnalysisStatus.FAILED := by
  have hpp : processAnalysis (some job) env = processPending job env := by
    simp [processAnalysis, hp]
  rw [hpp]
  have hlink := linkPuzzles_puzzleFail resp.puzzles (effectiveUserId job.user_id)
    job.analysis_id env pmsg hf
  refine ⟨{ job with
      status := AnalysisStatus.COMPLETED,
      result := some { toAnalysisCore := resp.result, puzzles := [] },
      completed_at := some env.now }, ?_, rfl, rfl, ?_, ?_, ?_⟩
  · simp [processPending, h0, hg, h1, hlink]
  · simp [processPending, h0, hg, h1, hlink]
  · simp [processPending, h0, hg, h1, hlink]
  · intro w hw
    simp [processPending, h0, hg, h1, hlink] at hw
    rcases hw with h | h <;> subst h <;> simp

/-- Environment where only the puzzle-batch save fails. -/
def envPuzzleFails : WorkerEnv := { sampleEnv with puzzleFail := some "disk full" }

/-- Witness for C5: the sample job (authenticated owner, two candidates)
still completes when the puzzle save throws. -/
theorem C5_puzzle_failure_absorbed_witness :
    ∃ r, (processAnalysis (some sampleJob) envPuzzleFails).final = some r ∧
      r.status = AnalysisStatus.COMPLETED ∧
      r.result = some { toAnalysisCore := sampleResp.result, puzzles := [] } ∧
      (processAnalysis (some sampleJob) envPuzzleFails).puzzleRecords = [] ∧
      (processAnalysis (some sampleJob) envPuzzleFails).threw = none ∧
      ∀ w ∈ (processAnalysis (some sampleJob) envPuzzleFails).writes,
        w.status ≠ AnalysisStatus.FAILED :=
  C5_puzzle_failure_absorbed sampleJob envPuzzleFails sampleResp "disk full"
    (by rfl) (by rfl) (by rfl) (by rfl) (by rfl)

/-- Claim C7 counterexample: when the COMPLETED commit's save rejects, the
error does not propagate out of the invocation — the catch block absorbs it,
flips the job to FAILED and persists that instead, so the invocation returns
normally. This refutes "a persistence failure of the COMPLETED or FAILED
commit propagates to the caller" for the COMPLETED half. -/
theorem C7_counterexample :
    envCommitFails.saveFail 1 = some "db down" ∧
    (processAnalysis (some sampleJob) envCommitFails).threw = none ∧
    ((processAnalysis (some sampleJob) envCommitFails).final.map fun r => r.status) =
      some AnalysisStatus.FAILED := by
  refine ⟨rfl, rfl, rfl⟩

/-- Claim C7 amended: a persistence failure of the FAILED commit propagates
to the caller (whether the FAILED outcome came from an analysis failure or
from a failed COMPLETED commit); a persistence failure of the COMPLETED
commit is instead caught, converted into a FAILED record carrying that
persistence error message (and the already-assigned result), and propagates
only if that FAILED save also fails. -/
theorem C7_terminal_commit_amended (job : AnalysisJob) (env : WorkerEnv)
    (hp : job.status = AnalysisStatus.PENDING)
    (h0 : env.saveFail 0 = none) :
    (∀ gmsg m, env.gemini = Except.error gmsg → env.saveFail 1 = some m →
      (processAnalysis (some job) env).threw = some m) ∧
    (∀ resp m m2, env.gemini = Except.ok resp → env.saveFail 1 = some m →
      env.saveFail 2 = some m2 →
      (processAnalysis (some job) env).threw = some m2) ∧
    (∀ resp m, env.gemini = Except.ok resp → env.saveFail 1 = some m →
      env.saveFail 2 = none →
      (processAnalysis (some job) env).threw = none ∧
      ((processAnalysis (some job) env).final.map fun r =>
        (r.status, r.error, r.result.isSome)) =
        some (AnalysisStatus.FAILED, some m, true)) := by
  have hpp : processAnalysis (some job) env = processPending job env := by
    simp [processAnalysis, hp]
  rw [hpp]
  refine ⟨?_, ?_, ?_⟩
  · intro gmsg m hg h1
    simp [processPending, runCatch, h0, hg, h1]
  · intro resp m m2 hg h1 h2
    simp [processPending, runCatch, h0, hg, h1, h2]
  · intro resp m hg h1 h2
    refine ⟨?_, ?_⟩ <;> simp [processPending, runCatch, h0, hg, h1, h2]

/-- Witness for the amended C7 at the environment whose COMPLETED commit
fails while the subsequent FAILED commit succeeds. -/
theorem C7_terminal_commit_amended_witness :
    (processAnalysis (some sampleJob) envCommitFails).threw = none ∧
    ((processAnalysis (some sampleJob) envCommitFails).final.map fun r =>
      (r.status, r.error, r.result.isSome)) =
      some (AnalysisStatus.FAILED, some "db down", true) :=
  (C7_terminal_commit_amended sampleJob envCommitFails (by rfl) (by rfl)).2.2
    sampleResp "db down" (by rfl) (by rfl) (by rfl)

/-- Claim C1 counterexample: a reachable run (analysis succeeds, the
COMPLETED commit's save rejects, the FAILED commit succeeds) persists a
terminal FAILED record whose `result` and `error` are both non-empty,
refuting "exactly one of result/error is non-empty once status is
terminal". -/
theorem C1_counterexample :
    ((processAnalysis (some sampleJob) envCommitFails).final.map fun r =>
      (r.status, r.result.isSome, r.error.isSome)) =
      some (AnalysisStatus.FAILED, true, true) := by
  rfl

/-- Claim C1 amended: along every run started from a freshly created job
(PENDING, result and error unset), every persisted write satisfies: PENDING
is never re-written; a PROCESSING write has empty result and error; a
COMPLETED write has a result and no error; a FAILED write has an error, and
it also carries a result only when the COMPLETED commit's save failed
(which is the one exception to mutual exclusion). -/
theorem C1_terminal_fields_amended (job : AnalysisJob) (env : WorkerEnv)
    (hp : job.status = AnalysisStatus.PENDING)
    (hr : job.result = none) (he : job.error = none) :
    ∀ w ∈ (processAnalysis (some job) env).writes,
      w.status ≠ AnalysisStatus.PENDING ∧
      (w.status = AnalysisStatus.PROCESSING → w.result = none ∧ w.error = none) ∧
      (w.status = AnalysisStatus.COMPLETED → w.result.isSome = true ∧ w.error = none) ∧
      (w.status = AnalysisStatus.FAILED → w.error.isSome = true ∧
        (w.result.isSome = true → env.saveFail 1 ≠ none)) := by
  intro w hw
  have hpp : processAnalysis (some job) env = processPending job env := by
    simp [processAnalysis, hp]
  rw [hpp] at hw
  cases h0 : env.saveFail 0 with
  | some m0 =>
    cases h1 : env.saveFail 1 with
    | none =>
      simp [processPending, runCatch, h0, h1] at hw
      subst hw
      simp [hr, he]
    | some m1 =>
      simp [processPending, runCatch, h0, h1] at hw
  | none =>
    cases hg : env.gemini with
    | error m =>
      cases h1 : env.saveFail 1 with
      | none =>
        simp [processPending, runCatch, h0, hg, h1] at hw
        rcases hw with h | h <;> subst h <;> simp [hr, he]
      | some m1 =>
        simp [processPending, runCatch, h0, hg, h1] at hw
        subst hw
        simp [hr, he]
    | ok resp =>
      cases h1 : env.saveFail 1 with
      | none =>
        simp [processPending, runCatch, h0, hg, h1] at hw
        rcases hw with h | h <;> subst h <;> simp [hr, he]
      | some m1 =>
        cases h2 : env.saveFail 2 with
        | none =>
          simp [processPending, runCatch, h0, hg, h1, h2] at hw
          rcases hw with h | h <;> subst h <;> simp [hr, he, h1]
        | some m2 =>
          simp [processPending, runCatch, h0, hg, h1, h2] at hw
          subst hw
          simp [hr, he]

/-- Witness for the amended C1, instantiated at the PROCESSING write of an
all-success run of the sample job. -/
theorem C1_terminal_fields_amended_witness :
    ({ sampleJob with status := AnalysisStatus.PROCESSING } : AnalysisJob).status ≠
        AnalysisStatus.PENDING ∧
    (({ sampleJob with status := AnalysisStatus.PROCESSING } : AnalysisJob).status =
        AnalysisStatus.PROCESSING →
      ({ sampleJob with status := AnalysisStatus.PROCESSING } : AnalysisJob).result = none ∧
      ({ sampleJob with status := AnalysisStatus.PROCESSING } : AnalysisJob).error = none) ∧
    (({ sampleJob with status := AnalysisStatus.PROCESSING } : AnalysisJob).status =
        AnalysisStatus.COMPLETED →
      ({ sampleJob with status := AnalysisStatus.PROCESSING } : AnalysisJob).result.isSome = true ∧
      ({ sampleJob with status := AnalysisStatus.PROCESSING } : AnalysisJob).error = none) ∧
    (({ sampleJob with status := AnalysisStatus.PROCESSING } : AnalysisJob).status =
        AnalysisStatus.FAILED →
      ({ sampleJob with status := AnalysisStatus.PROCESSING } : AnalysisJob).error.isSome = true ∧
      (({ sampleJob with status := AnalysisStatus.PROCESSING } : AnalysisJob).result.isSome = true →
        sampleEnv.saveFail 1 ≠ none)) :=
  C1_terminal_fields_amended sampleJob sampleEnv (by rfl) (by rfl) (by rfl)
    { sampleJob with status := AnalysisStatus.PROCESSING } (by decide)

/-- The record bodies persisted by the linker batch are exactly the
candidates, in order. -/
theorem attachIds_map_body (u aid : String) (f : Nat → String) :
    ∀ (i : Nat) (cands : List ChessPuzzle),
      (attachIds u aid f i cands).map (fun p => p.toChessPuzzle) = cands := by
  intro i cands
  induction cands generalizing i with
  | nil => simp [attachIds]
  | cons p ps ih => simp [attachIds, ih]

/-- Every record persisted by the linker batch carries the given owner and
source-job back-reference. -/
theorem attachIds_mem (u aid : String) (f : Nat → String) :
    ∀ (i : Nat) (cands : List ChessPuzzle) (p : Puzzle),
      p ∈ attachIds u aid f i cands → p.user_id = u ∧ p.analysis_id = aid := by
  intro i cands
  induction cands generalizing i with
  | nil => simp [attachIds]
  | cons q qs ih =>
    intro p hp
    simp only [attachIds, List.mem_cons] at hp
    rcases hp with h | h
    · subst h
      exact ⟨rfl, rfl⟩
    · exact ih (i + 1) p h

/-- A batch for the guest sentinel is skipped entirely. -/
theorem linkPuzzles_guest (cands : List ChessPuzzle) (aid : String)
    (env : WorkerEnv) : linkPuzzles cands "guest" aid env = ([], []) := by
  simp [linkPuzzles]

/-- A non-guest batch with a succeeding store persists every candidate. -/
theorem linkPuzzles_auth (cands : List ChessPuzzle) (u aid : String)
    (env : WorkerEnv) (hu : u ≠ "guest") (hf : env.puzzleFail = none) :
    linkPuzzles cands u aid env =
      ((attachIds u aid env.freshIds 0 cands).map fun p => p.puzzle_id,
        attachIds u aid env.freshIds 0 cands) := by
  cases cands with
  | nil => simp [linkPuzzles, attachIds]
  | cons p ps => simp [linkPuzzles, savePuzzlesModel, hf, hu]

/-- Claim C6: on a successful analysis, a guest-owned job creates zero
Puzzle records even when candidates are returned, and its COMPLETED result
carries an empty reference list; an authenticated owner's job persists every
candidate (with the owner and source-job back-reference) and its result
stores exactly the records' assigned ids — never puzzle bodies. -/
theorem C6_guest_vs_authenticated (job : AnalysisJob) (env : WorkerEnv)
    (resp : GeminiResponse)
    (hp : job.status = AnalysisStatus.PENDING)
    (h0 : env.saveFail 0 = none) (h1 : env.saveFail 1 = none)
    (hg : env.gemini = Except.ok resp)
    (hf : env.puzzleFail = none) :
    (effectiveUserId job.user_id = "guest" →
      (processAnalysis (some job) env).puzzleRecords = [] ∧
      ((processAnalysis (some job) env).final.map fun r => r.result) =
        some (some { toAnalysisCore := resp.result, puzzles := [] })) ∧
    (effectiveUserId job.user_id ≠ "guest" →
      ((processAnalysis (some job) env).puzzleRecords.map fun p => p.toChessPuzzle) =
        resp.puzzles ∧
      (∀ p ∈ (processAnalysis (some job) env).puzzleRecords,
        p.user_id = effectiveUserId job.user_id ∧ p.analysis_id = job.analysis_id) ∧
      ((processAnalysis (some job) env).final.map fun r => r.result) =
        some (some
          { toAnalysisCore := resp.result,
            puzzles := (processAnalysis (some job) env).puzzleRecords.map
              fun p => p.puzzle_id })) := by
  have hpp : processAnalysis (some job) env = processPending job env := by
    simp [processAnalysis, hp]
  rw [hpp]
  constructor
  · intro hu
    have hl : linkPuzzles resp.puzzles (effectiveUserId job.user_id)
        job.analysis_id env = ([], []) := by
      rw [hu]
      exact linkPuzzles_guest resp.puzzles job.analysis_id env
    constructor <;> simp [processPending, h0, hg, h1, hl]
  · intro hu
    have hl := linkPuzzles_auth resp.puzzles (effectiveUserId job.user_id)
      job.analysis_id env hu hf
    refine ⟨?_, ?_, ?_⟩
    · simp [processPending, h0, hg, h1, hl, attachIds_map_body]
    · intro p hp2
      simp [processPending, h0, hg, h1, hl] at hp2
      exact attachIds_mem (effectiveUserId job.user_id) job.analysis_id
        env.freshIds 0 resp.puzzles p hp2
    · simp [processPending, h0, hg, h1, hl]

/-- A guest-owned fresh job (no user id on the document). -/
def sampleGuestJob : AnalysisJob := { sampleJob with user_id := none }

/-- Witness for C6 at the guest-owned sample job: candidates are returned
but nothing is persisted and the stored reference list is empty. -/
theorem C6_guest_vs_authenticated_witness :
    (processAnalysis (some sampleGuestJob) sampleEnv).puzzleRecords = [] ∧
    ((processAnalysis (some sampleGuestJob) sampleEnv).final.map fun r => r.result) =
      some (some { toAnalysisCore := sampleResp.result, puzzles := [] }) :=
  (C6_guest_vs_authenticated sampleGuestJob sampleEnv sampleResp
    (by rfl) (by rfl) (by rfl) (by rfl) (by rfl)).1 (by rfl)

/-- A list `takeToLastClose` rejects has no closing brace at all. -/
theorem takeToLastClose_eq_none :
    ∀ {cs : List Char}, takeToLastClose cs = none → '}' ∉ cs := by
  intro cs
  induction cs with
  | nil => simp
  | cons c cs ih =>
    intro h hmem
    cases htc : takeToLastClose cs with
    | some t => simp [takeToLastClose, htc] at h
    | none =>
      simp [takeToLastClose, htc] at h
      rcases List.mem_cons.mp hmem with h1 | h1
      · exact h h1.symm
      · exact ih htc h1

/-- `takeToLastClose` returns a prefix whose complement contains no closing
brace: everything after the span has no right brace. -/
theorem takeToLastClose_eq_some :
    ∀ {cs t : List Char}, takeToLastClose cs = some t →
      ∃ post, cs = t ++ post ∧ '}' ∉ post := by
  intro cs
  induction cs with
  | nil =>
    intro t h
    simp [takeToLastClose] at h
  | cons c cs ih =>
    intro t h
    cases htc : takeToLastClose cs with
    | some t2 =>
      simp only [takeToLastClose, htc] at h
      obtain ⟨post, hpost, hnot⟩ := ih htc
      obtain rfl : c :: t2 = t := Option.some.inj h
      exact ⟨post, by rw [List.cons_append, hpost], hnot⟩
    | none =>
      simp only [takeToLastClose, htc] at h
      by_cases hc : c = '}'
      · rw [if_pos hc] at h
        obtain rfl : [c] = t := Option.some.inj h
        exact ⟨cs, by simp, takeToLastClose_eq_none htc⟩
      · rw [if_neg hc] at h
        cases h

/-- Claim C3 counterexample: on a response holding two JSON objects separated
by commentary, the first balanced brace span exists and parses as JSON — so
the claim says extraction succeeds — yet the code's greedy first-brace-to-
last-brace span is not valid JSON and `analyzeGame` fails with a parse
error. -/
theorem C3_counterexample :
    firstBalancedSpan "\x7b\"a\":1\x7d x \x7b\"b\":2\x7d" = some "\x7b\"a\":1\x7d" ∧
    jsonValid "\x7b\"a\":1\x7d" = true ∧
    geminiParsedSpan "\x7b\"a\":1\x7d x \x7b\"b\":2\x7d" = none := by
  refine ⟨?_, ?_, ?_⟩ <;> rfl

/-- Claim C3 amended: the client extracts the maximal span from the first
opening brace to the last closing brace of the response text and parses that;
it fails iff no such span exists or that maximal span is not valid JSON.
Whenever extraction succeeds, the extracted span is valid JSON, everything
before it contains no opening brace and everything after it contains no
closing brace — leading and trailing brace-free commentary is tolerated. -/
theorem C3_greedy_span_amended (t s : String)
    (h : geminiParsedSpan t = some s) :
    jsonValid s = true ∧
    ∃ pre post, t.data = pre ++ s.data ++ post ∧
      (∀ c ∈ pre, c ≠ '{') ∧ (∀ c ∈ post, c ≠ '}') := by
  have hboth : extractJsonSpan t = some s ∧ jsonValid s = true := by
    unfold geminiParsedSpan at h
    cases hex : extractJsonSpan t with
    | none =>
      rw [hex] at h
      exact absurd h (by simp)
    | some s2 =>
      rw [hex] at h
      change (if jsonValid s2 = true then some s2 else none) = some s at h
      by_cases hv : jsonValid s2 = true
      · rw [if_pos hv] at h
        obtain rfl : s2 = s := Option.some.inj h
        exact ⟨rfl, hv⟩
      · rw [if_neg hv] at h
        exact absurd h (by simp)
  obtain ⟨hex, hv⟩ := hboth
  refine ⟨hv, ?_⟩
  unfold extractJsonSpan at hex
  obtain ⟨l, hl, hmk⟩ := Option.map_eq_some'.mp hex
  obtain ⟨post, hsplit, hnot⟩ := takeToLastClose_eq_some hl
  subst hmk
  refine ⟨t.data.takeWhile (fun c => c ≠ '{'), post, ?_, ?_, ?_⟩
  · calc t.data
        = t.data.takeWhile (fun c => c ≠ '{') ++
            t.data.dropWhile (fun c => c ≠ '{') :=
          (List.takeWhile_append_dropWhile (p := fun c => decide (c ≠ '{'))
            (l := t.data)).symm
      _ = t.data.takeWhile (fun c => c ≠ '{') ++ (l ++ post) := by rw [hsplit]
      _ = _ := by simp
  · intro c hc
    have hp := List.mem_takeWhile_imp (p := fun c => decide (c ≠ '{'))
      (l := t.data) hc
    exact of_decide_eq_true hp
  · intro c hc heq
    rw [heq] at hc
    exact hnot hc

/-- Witness for the amended C3: a response with leading commentary before a
single JSON object. -/
theorem C3_greedy_span_amended_witness :
    jsonValid "\x7b\"a\":1\x7d" = true ∧
    ∃ pre post, ("hi \x7b\"a\":1\x7d" : String).data =
        pre ++ ("\x7b\"a\":1\x7d" : String).data ++ post ∧
      (∀ c ∈ pre, c ≠ '{') ∧ (∀ c ∈ post, c ≠ '}') :=
  C3_greedy_span_amended "hi \x7b\"a\":1\x7d" "\x7b\"a\":1\x7d" (by rfl)

/-- Witness for C10 at a concrete "*"-result row. -/
theorem C10_star_counted_as_loss_witness :
    (getPerformanceByColor [dashJob "*" (some PlayerColor.white)]).forColor
        PlayerColor.white = { wins := 0, losses := 1, draws := 0 } ∧
    (∃ st, getMostPlayedOpenings [dashJob "*" (some PlayerColor.white)] = [st] ∧
      st.count = 1 ∧ st.wins = 0 ∧ st.losses = 1 ∧ st.draws = 0) ∧
    calculateWinRate [dashJob "*" (some PlayerColor.white)] = none :=
  C10_star_counted_as_loss (dashJob "*" (some PlayerColor.white))
    PlayerColor.white (by rfl) (by rfl) (by rfl)

end Blueolive
